import Mathlib

/-!
Verification development for the stractor source-structure extractor.

The extractor (src/stractor/core.py) runs tree-sitter structural queries
over a parsed Python syntax tree and assembles a `SourceFile` document
model (src/stractor/model.py).  We embed the syntax-tree fragment the
extractor queries, the tree-sitter query semantics for the five query
strings appearing in core.py, and the extraction functions themselves,
and prove or refute the specified properties.

Modelling conventions:
- every syntax node carries the verbatim source text the extractor reads
  through `_text` (byte-range extraction is modelled by storing the text);
- Python string operations (`strip`, `split`, `in`, `join`) are modelled
  by executable functions over `List Char` with the same semantics;
- the tree-sitter query strings of core.py are modelled by dedicated
  traversal functions: an unanchored pattern matches nodes at every depth
  of the queried subtree, an anchored pattern `(module (X))` matches only
  direct children, and matches are returned in document (preorder) order.
-/

namespace Stractor

/-! ## Python string primitives -/

/-- The character set stripped by Python's default `str.strip()`. -/
def pySpaceChars : List Char := [' ', '\t', '\n', '\r', '\x0b', '\x0c']

/-- The character set of `.strip('\'"')` in core.py. -/
def quoteChars : List Char := ['\'', '"']

/-- The character set of `.strip('()')` in core.py. -/
def parenChars : List Char := ['(', ')']

/-- Drop the longest suffix of characters satisfying `p`. -/
def dropEndWhile (p : Char → Bool) (l : List Char) : List Char :=
  (l.reverse.dropWhile p).reverse

/-- Python `str.strip(chars)` on a character list: remove the longest
prefix and suffix of characters satisfying `p`. -/
def stripList (p : Char → Bool) (l : List Char) : List Char :=
  dropEndWhile p (l.dropWhile p)

/-- Python `s.strip(cs)` for an explicit character set. -/
def pyStripSet (s : String) (cs : List Char) : String :=
  String.mk (stripList (fun c => cs.contains c) s.toList)

/-- Python `s.strip()` (default whitespace set). -/
def pyStrip (s : String) : String :=
  String.mk (stripList (fun c => pySpaceChars.contains c) s.toList)

/-- Whether `pre` is a prefix of `l` (Boolean, executable). -/
def isPrefixL : List Char → List Char → Bool
  | [], _ => true
  | _ :: _, [] => false
  | a :: as, b :: bs => a == b && isPrefixL as bs

/-- Whether `needle` occurs as a contiguous sublist of `hay`
(Python's `needle in hay` on strings). -/
def containsL (needle : List Char) : List Char → Bool
  | [] => isPrefixL needle []
  | h :: t => isPrefixL needle (h :: t) || containsL needle t

/-- Python `needle in hay` for strings. -/
def pyContains (hay needle : String) : Bool :=
  containsL needle.toList hay.toList

/-- Python `s.split('\n')` on a character list: empty input yields one
empty field, and each newline separates fields. -/
def splitOnNl : List Char → List (List Char)
  | [] => [[]]
  | c :: cs =>
    let r := splitOnNl cs
    if c = '\n' then [] :: r
    else
      match r with
      | [] => [[c]]
      | h :: t => (c :: h) :: t

/-- Python `s.split('\n')` for strings. -/
def pySplitLines (s : String) : List String :=
  (splitOnNl s.toList).map String.mk

/-- Python `'\n'.join(lines)`. -/
def pyJoinLines : List String → String
  | [] => ""
  | [l] => l
  | l :: ls => l ++ "\n" ++ pyJoinLines ls

/-! ## The document model (src/stractor/model.py) -/

/-- Mirror of `model.Function`. -/
structure Function where
  name : String
  parameters : Option String
  return_type : Option String
  documentation : Option String
  body : Option String

/-- Mirror of `model.Entity` (the `type` field is free text, the code
always passes the constant `"class"`). -/
structure Entity where
  name : String
  type : String
  documentation : Option String
  methods : List Function

/-- Mirror of `model.SourceFile`. -/
structure SourceFile where
  path : String
  documentation : Option String
  imports : List String
  top_level_attributes : List String
  top_level_functions : List Function
  entities : List Entity

/-! ## The syntax-tree fragment queried by core.py

A tree-sitter parse of a Python file, restricted to the node shapes the
five queries of core.py can distinguish.  Every node the extractor reads
text from stores its verbatim source text.  A `Block` stores the verbatim
text of its whole span (used by `_extract_docstring_and_body`) together
with its direct child statements; compound statements (if/while/for/try,
with their else branches and similar) store their nested blocks. -/

/-- The expression alternatives relevant to the queries: a bare string
literal (matching `(expression_statement (string))`), an assignment
(matching `(expression_statement (assignment))`), or anything else. -/
inductive Expr : Type where
  | str : String → Expr
  | assign : String → Expr
  | otherExpr : String → Expr

mutual

inductive Stmt : Type where
  | exprStmt : Expr → Stmt
  | importStmt : String → Stmt
  | importFrom : String → Stmt
  | funcDef : String → String → Option String → Block → Stmt
  | classDef : String → Block → Stmt
  | compound : String → List Block → Stmt
  | otherStmt : String → Stmt

inductive Block : Type where
  | mk : String → List Stmt → Block

end

/-- The verbatim text of a block's span. -/
def Block.text : Block → String
  | .mk t _ => t

/-- The direct child statements of a block. -/
def Block.stmts : Block → List Stmt
  | .mk _ ss => ss

/-- The root `module` node: its direct children. -/
structure Module where
  stmts : List Stmt

/-! ## Tree-sitter query semantics for the query strings of core.py

`query.matches(node)` returns, in document order, one match per way the
pattern can match inside the subtree rooted at `node`.  A pattern whose
outermost node kind is not `module` (the queries of `_get_classes` and
`_get_methods_of_class`, and the `(block ...)` docstring query of
`_extract_docstring_and_body`) matches at every depth of the queried
subtree; a pattern of the form `(module (X))` matches only direct
children of the module node. -/

/-- The capture of `(expression_statement (string) @doc)` at one
statement: the string's verbatim text. -/
def strOfStmt : Stmt → Option String
  | .exprStmt (.str t) => some t
  | _ => none

/-- The capture of `(import_statement) @import` /
`(import_from_statement) @import` at one statement. -/
def importTextOf : Stmt → Option String
  | .importStmt t => some t
  | .importFrom t => some t
  | _ => none

/-- The capture of `(expression_statement (assignment) @assignment)`
at one statement. -/
def assignTextOf : Stmt → Option String
  | .exprStmt (.assign t) => some t
  | _ => none

/-- The captures of the function-definition pattern of core.py at one
statement: name, parameter-list text, optional return-type text, body. -/
def funcOf : Stmt → Option (String × String × Option String × Block)
  | .funcDef n p rt b => some (n, p, rt, b)
  | _ => none

/-- The captures of the class-definition pattern of core.py at one
statement: name and body block. -/
def classOf : Stmt → Option (String × Block)
  | .classDef n b => some (n, b)
  | _ => none

mutual

/-- Matches of `(block (expression_statement (string) @doc))` contributed
by one statement and the blocks nested in it, in document order.  A bare
string statement is a match of its enclosing block; nested blocks are
searched because the pattern is unanchored. -/
def stmtStringMatches : Stmt → List String
  | .exprStmt (.str t) => [t]
  | .exprStmt _ => []
  | .funcDef _ _ _ b => blockStringMatches b
  | .classDef _ b => blockStringMatches b
  | .compound _ bs => blocksStringMatches bs
  | _ => []

def stmtsStringMatches : List Stmt → List String
  | [] => []
  | s :: ss => stmtStringMatches s ++ stmtsStringMatches ss

def blockStringMatches : Block → List String
  | .mk _ ss => stmtsStringMatches ss

def blocksStringMatches : List Block → List String
  | [] => []
  | b :: bs => blockStringMatches b ++ blocksStringMatches bs

end

mutual

/-- Matches of the unanchored `(class_definition ...)` query of
`_get_classes` at one statement, in document order: a class definition
matches wherever it occurs, and its own subtree is searched too. -/
def stmtClassMatches : Stmt → List (String × Block)
  | .classDef n b => (n, b) :: blockClassMatches b
  | .funcDef _ _ _ b => blockClassMatches b
  | .compound _ bs => blocksClassMatches bs
  | _ => []

def stmtsClassMatches : List Stmt → List (String × Block)
  | [] => []
  | s :: ss => stmtClassMatches s ++ stmtsClassMatches ss

def blockClassMatches : Block → List (String × Block)
  | .mk _ ss => stmtsClassMatches ss

def blocksClassMatches : List Block → List (String × Block)
  | [] => []
  | b :: bs => blockClassMatches b ++ blocksClassMatches bs

end

mutual

/-- Matches of the unanchored `(function_definition ...)` query of
`_get_methods_of_class` at one statement, in document order: a function
definition matches wherever it occurs, and its own body is searched too. -/
def stmtFuncMatches : Stmt → List (String × String × Option String × Block)
  | .funcDef n p rt b => (n, p, rt, b) :: blockFuncMatches b
  | .classDef _ b => blockFuncMatches b
  | .compound _ bs => blocksFuncMatches bs
  | _ => []

def stmtsFuncMatches : List Stmt → List (String × String × Option String × Block)
  | [] => []
  | s :: ss => stmtFuncMatches s ++ stmtsFuncMatches ss

def blockFuncMatches : Block → List (String × String × Option String × Block)
  | .mk _ ss => stmtsFuncMatches ss

def blocksFuncMatches : List Block → List (String × String × Option String × Block)
  | [] => []
  | b :: bs => blockFuncMatches b ++ blocksFuncMatches bs

end

mutual

/-- All statements of the subtree below one statement, in document
(preorder) order, the statement itself included. -/
def stmtAll : Stmt → List Stmt
  | .funcDef n p rt b => .funcDef n p rt b :: blockAll b
  | .classDef n b => .classDef n b :: blockAll b
  | .compound t bs => .compound t bs :: blocksAll bs
  | s => [s]

def stmtsAll : List Stmt → List Stmt
  | [] => []
  | s :: ss => stmtAll s ++ stmtsAll ss

/-- All statements of a block's subtree in document order. -/
def blockAll : Block → List Stmt
  | .mk _ ss => stmtsAll ss

def blocksAll : List Block → List Stmt
  | [] => []
  | b :: bs => blockAll b ++ blocksAll bs

end

/-- The first bare string-literal expression statement of a statement
list, looking only at the statements themselves (direct children of a
scope), in source order. -/
def specFirstString : List Stmt → Option String
  | [] => none
  | s :: ss =>
    match strOfStmt s with
    | some t => some t
    | none => specFirstString ss

/-! ## The extraction functions of src/stractor/core.py -/

/-- The line filter of `_extract_docstring_and_body` (core.py lines
305-316): scan lines with a `skip_docstring` flag, dropping a line that
contains `needle` while the flag is off (setting the flag), dropping a
blank line while the flag is on (keeping the flag), and appending every
other line (clearing the flag). -/
def filterDocLines (needle : String) : List String → Bool → List String
  | [], _ => []
  | line :: rest, skip =>
    if pyContains line needle && !skip then
      filterDocLines needle rest true
    else if !skip || !(pyStrip line == "") then
      line :: filterDocLines needle rest false
    else
      filterDocLines needle rest skip

/-- The body clean-up at the end of `_extract_docstring_and_body`
(core.py lines 319-323): if the body is non-empty, strip it, and if it
then starts with an opening and ends with a closing curly brace, drop
that outer pair and strip again. -/
def postBody (body : String) : String :=
  if body == "" then body
  else
    let b := pyStrip body
    if b.toList.head? == some '\x7b' && b.toList.getLast? == some '\x7d' then
      pyStrip (String.mk ((b.toList.drop 1).dropLast))
    else b

/-- Mirror of `Stractor._extract_docstring_and_body`: find the first
match of the block docstring query in the body subtree; if found, clean
it into the docstring and remove its line(s) from the verbatim body text
with `filterDocLines`; finally apply the body clean-up.  Returns the
docstring (None when no match) and the body text (possibly empty). -/
def extract_docstring_and_body (b : Block) : Option String × String :=
  let full := b.text
  match blockStringMatches b with
  | [] => (none, postBody full)
  | t :: _ =>
    let docstring := pyStrip (pyStripSet t quoteChars)
    let needle := pyStrip t
    let filtered := filterDocLines needle (pySplitLines full) false
    let body := pyStrip (pyJoinLines filtered)
    (some docstring, postBody body)

/-- Mirror of `Stractor._get_module_docstring`: take the first match of
`(module (expression_statement (string) @doc))`, strip quote characters
and whitespace, and return None when there is no match or the cleaned
text is empty. -/
def get_module_docstring (m : Module) : Option String :=
  match m.stmts.filterMap strOfStmt with
  | [] => none
  | t :: _ =>
    let d := pyStrip (pyStripSet t quoteChars)
    if d == "" then none else some d

/-- Mirror of `Stractor._get_imports`: collect the captures of the import
query over the module's direct children and append each non-empty text. -/
def get_imports (m : Module) : List String :=
  (m.stmts.filterMap importTextOf).foldl
    (fun acc t => if t == "" then acc else acc ++ [t]) []

/-- Mirror of `Stractor._get_top_level_attributes`: collect the
`(assignment)` captures over the module's direct children and append each
non-empty text. -/
def get_top_level_attributes (m : Module) : List String :=
  (m.stmts.filterMap assignTextOf).foldl
    (fun acc t => if t == "" then acc else acc ++ [t]) []

/-- The `Function` record built by the loop bodies of
`_get_module_functions` and `_get_methods_of_class` (they are identical):
split docstring and body, strip parenthesis characters from both ends of
the parameter-list text, and turn every empty text into None. -/
def buildFunction (name params : String) (returnType : Option String)
    (body : Block) : Function :=
  let db := extract_docstring_and_body body
  let params1 := if params == "" then params else pyStripSet params parenChars
  { name := name
    parameters := if params1 == "" then none else some params1
    return_type :=
      let rt := returnType.getD ""
      if rt == "" then none else some rt
    documentation :=
      match db.1 with
      | some d => if d == "" then none else some d
      | none => none
    body := if db.2 == "" then none else some db.2 }

/-- `buildFunction` uncurried over a match's captures. -/
def buildFunctionT (f : String × String × Option String × Block) : Function :=
  buildFunction f.1 f.2.1 f.2.2.1 f.2.2.2

/-- Mirror of `Stractor._get_module_functions`: one `Function` per match
of the module-anchored function query, in source order. -/
def get_module_functions (m : Module) : List Function :=
  (m.stmts.filterMap funcOf).foldl (fun acc f => acc ++ [buildFunctionT f]) []

/-- Mirror of `Stractor._get_methods_of_class`: one `Function` per match
of the unanchored function query over the class subtree, in document
order.  The class node itself is not a function definition, so the
matches are those of its body subtree. -/
def get_methods_of_class (body : Block) : List Function :=
  (blockFuncMatches body).foldl (fun acc f => acc ++ [buildFunctionT f]) []

/-- The `@doc` capture clean-up of `_get_classes` (core.py lines 207-212):
the capture is the first bare string-literal statement among the direct
children of the class body (empty text when absent); if non-empty, strip
quote characters and whitespace; empty results become None. -/
def classDocOf (body : Block) : Option String :=
  let docText := ((body.stmts.filterMap strOfStmt).head?).getD ""
  let d := if docText == "" then docText
           else pyStrip (pyStripSet docText quoteChars)
  if d == "" then none else some d

/-- Mirror of `Stractor._get_classes`: one `Entity` per match of the
unanchored class query over the whole tree, in document order. -/
def get_classes (m : Module) : List Entity :=
  (stmtsClassMatches m.stmts).foldl
    (fun acc c =>
      acc ++ [{ name := c.1
                type := "class"
                documentation := classDocOf c.2
                methods := get_methods_of_class c.2 : Entity }]) []

/-- Mirror of `Stractor.parse` given an already-parsed tree: extract the
five components and assemble the `SourceFile`. -/
def parse (m : Module) (path : String) : SourceFile :=
  { path := path
    documentation := get_module_docstring m
    imports := get_imports m
    top_level_attributes := get_top_level_attributes m
    top_level_functions := get_module_functions m
    entities := get_classes m }

/-- Modelled from the spec: the error kind `ParseError` and the failing
behaviour of the external Parse Engine are not part of src/ (tree-sitter
is an external collaborator); spec sections 6 and 7 state that the engine
`fails with a parse error on unrecoverable malformed input` and that this
is the one error kind of the system. -/
inductive ParseError : Type where
  | cannotParse : String → ParseError

/-- Modelled from the spec: `parse(source_text, path?)` with the Parse
Engine abstracted as a function from source text to either a
`ParseError` or a syntax tree.  An engine failure propagates; otherwise
the controller assembles the complete `SourceFile` from the tree. -/
def parseWith (engine : String → Except ParseError Module)
    (source path : String) : Except ParseError SourceFile :=
  match engine source with
  | .error e => .error e
  | .ok tree => .ok (parse tree path)

/-! ## Specification-side formulations

Alternative formulations of the extraction steps, written in the words of
the (amended) specification sentences, to be proved equal to the
extraction functions above. -/

/-- The docstring clean-up applied to a captured literal: strip quote
characters from both ends, then strip whitespace. -/
def rawClean (t : String) : String :=
  pyStrip (pyStripSet t quoteChars)

/-- The documentation value obtained from a captured literal: the cleaned
text, or None when it is empty. -/
def cleanDoc (t : String) : Option String :=
  if rawClean t == "" then none else some (rawClean t)

/-- The entity built from one class match. -/
def entityOf (c : String × Block) : Entity :=
  { name := c.1
    type := "class"
    documentation := classDocOf c.2
    methods := get_methods_of_class c.2 }

mutual

/-- The docstring-removal scan, in the words of the amended rule, while
no line was just dropped: a line containing the literal is dropped and
switches to the skipping state; every other line is kept. -/
def specScanKeep (needle : String) : List String → List String
  | [] => []
  | l :: ls =>
    if pyContains l needle then specScanSkip needle ls
    else l :: specScanKeep needle ls

/-- The scan directly after a dropped line: blank lines are dropped and
stay in this state; the first non-blank line (whether or not it contains
the literal) is kept and returns to the normal state. -/
def specScanSkip (needle : String) : List String → List String
  | [] => []
  | l :: ls =>
    if pyStrip l == "" then specScanSkip needle ls
    else l :: specScanKeep needle ls

end

/-- A module with no statements at all. -/
def emptyModule : Module := ⟨[]⟩

/-! ## Concrete inputs for the refutations and witnesses -/

/-- Parse tree of `x = 1⏎"doc"`: the bare string statement is the second
statement of the module, not the first. -/
def exLateString : Module :=
  ⟨[.exprStmt (.assign "x = 1"), .exprStmt (.str "\"doc\"")]⟩

/-- Parse tree of a module whose only statement is `def f():` with a
class `C` nested inside the function body. -/
def exNestedClass : Module :=
  ⟨[.funcDef "f" "()" none
      (Block.mk "class C:\n        pass"
        [.classDef "C" (Block.mk "pass" [.otherStmt "pass"])])]⟩

/-- Class body of a class with one method `meth` that defines an inner
function `inner` inside its own body. -/
def exInnerFuncBody : Block :=
  Block.mk "def meth(self):\n        def inner():\n            pass\n        pass"
    [.funcDef "meth" "(self)" none
      (Block.mk "def inner():\n            pass\n        pass"
        [.funcDef "inner" "()" none (Block.mk "pass" [.otherStmt "pass"]),
         .otherStmt "pass"])]

/-- Parse tree of `def f(x=g()):⏎    pass`: the verbatim parameter-list
text is `(x=g())`, whose trailing `)` belongs to the call `g()`. -/
def exCallDefault : Module :=
  ⟨[.funcDef "f" "(x=g())" none (Block.mk "pass" [.otherStmt "pass"])]⟩

/-- Parse tree of a module whose docstring literal is `""""Hello"""`:
a triple-quoted string whose content `"Hello` begins with a quote
character of its own. -/
def exQuoteContent : Module :=
  ⟨[.exprStmt (.str "\"\"\"\"Hello\"\"\"")]⟩

/-- Function body whose docstring text reappears in a later line:
`"doc"⏎    x = 1⏎    y = "doc"`. -/
def exLaterOccurrence : Block :=
  Block.mk "\"doc\"\n    x = 1\n    y = \"doc\""
    [.exprStmt (.str "\"doc\""),
     .exprStmt (.assign "x = 1"),
     .exprStmt (.assign "y = \"doc\"")]

/-- Parse tree of a function whose body is exactly one multi-line
docstring `"""a⏎b"""` and nothing else. -/
def exMultilineDoc : Module :=
  ⟨[.funcDef "f" "()" none
      (Block.mk "\"\"\"a\nb\"\"\"" [.exprStmt (.str "\"\"\"a\nb\"\"\"")])]⟩

/-- Parse tree with two identical import statements and one from-import. -/
def exDupImports : Module :=
  ⟨[.importStmt "import os", .importStmt "import os",
    .importFrom "from a import b"]⟩

/-- Parse tree of `def f():⏎    pass` with an empty parameter list. -/
def exEmptyParams : Module :=
  ⟨[.funcDef "f" "()" none (Block.mk "pass" [.otherStmt "pass"])]⟩

/-! ## Helper lemmas: the append-loops of core.py as maps and filters -/

theorem foldl_append_map {α β : Type} (f : α → β) :
    ∀ (l : List α) (acc : List β),
      l.foldl (fun a x => a ++ [f x]) acc = acc ++ l.map f
  | [], acc => by simp
  | x :: l, acc => by
    simp only [List.foldl_cons, List.map_cons, foldl_append_map f l,
      List.append_assoc, List.singleton_append]

theorem foldl_append_filter :
    ∀ (l : List String) (acc : List String),
      l.foldl (fun a t => if t == "" then a else a ++ [t]) acc
        = acc ++ l.filter (fun t => !(t == ""))
  | [], acc => by simp
  | x :: l, acc => by
    by_cases h : x == ""
    · simp only [List.foldl_cons, h, if_pos, List.filter_cons, Bool.not_true,
        foldl_append_filter l acc]
      simp [h]
    · simp only [List.foldl_cons, if_neg h, List.filter_cons,
        foldl_append_filter l (acc ++ [x])]
      simp [h]

/-! ## Helper lemmas: the unanchored query collectors as preorder
filterMaps -/

mutual

theorem stmtStringMatches_eq :
    ∀ s : Stmt, stmtStringMatches s = (stmtAll s).filterMap strOfStmt
  | .exprStmt (.str _) => rfl
  | .exprStmt (.assign _) => rfl
  | .exprStmt (.otherExpr _) => rfl
  | .importStmt _ => rfl
  | .importFrom _ => rfl
  | .otherStmt _ => rfl
  | .funcDef n p rt b => by
    simp [stmtStringMatches, stmtAll, List.filterMap_cons, strOfStmt,
      blockStringMatches_eq b]
  | .classDef n b => by
    simp [stmtStringMatches, stmtAll, List.filterMap_cons, strOfStmt,
      blockStringMatches_eq b]
  | .compound t bs => by
    simp [stmtStringMatches, stmtAll, List.filterMap_cons, strOfStmt,
      blocksStringMatches_eq bs]

theorem stmtsStringMatches_eq :
    ∀ ss : List Stmt, stmtsStringMatches ss = (stmtsAll ss).filterMap strOfStmt
  | [] => rfl
  | s :: ss => by
    simp [stmtsStringMatches, stmtsAll, List.filterMap_append,
      stmtStringMatches_eq s, stmtsStringMatches_eq ss]

theorem blockStringMatches_eq :
    ∀ b : Block, blockStringMatches b = (blockAll b).filterMap strOfStmt
  | .mk t ss => by
    simp [blockStringMatches, blockAll, stmtsStringMatches_eq ss]

theorem blocksStringMatches_eq :
    ∀ bs : List Block,
      blocksStringMatches bs = (blocksAll bs).filterMap strOfStmt
  | [] => rfl
  | b :: bs => by
    simp [blocksStringMatches, blocksAll, List.filterMap_append,
      blockStringMatches_eq b, blocksStringMatches_eq bs]

end

mutual

theorem stmtClassMatches_eq :
    ∀ s : Stmt, stmtClassMatches s = (stmtAll s).filterMap classOf
  | .exprStmt _ => rfl
  | .importStmt _ => rfl
  | .importFrom _ => rfl
  | .otherStmt _ => rfl
  | .funcDef n p rt b => by
    simp [stmtClassMatches, stmtAll, List.filterMap_cons, classOf,
      blockClassMatches_eq b]
  | .classDef n b => by
    simp [stmtClassMatches, stmtAll, List.filterMap_cons, classOf,
      blockClassMatches_eq b]
  | .compound t bs => by
    simp [stmtClassMatches, stmtAll, List.filterMap_cons, classOf,
      blocksClassMatches_eq bs]

theorem stmtsClassMatches_eq :
    ∀ ss : List Stmt, stmtsClassMatches ss = (stmtsAll ss).filterMap classOf
  | [] => rfl
  | s :: ss => by
    simp [stmtsClassMatches, stmtsAll, List.filterMap_append,
      stmtClassMatches_eq s, stmtsClassMatches_eq ss]

theorem blockClassMatches_eq :
    ∀ b : Block, blockClassMatches b = (blockAll b).filterMap classOf
  | .mk t ss => by
    simp [blockClassMatches, blockAll, stmtsClassMatches_eq ss]

theorem blocksClassMatches_eq :
    ∀ bs : List Block, blocksClassMatches bs = (blocksAll bs).filterMap classOf
  | [] => rfl
  | b :: bs => by
    simp [blocksClassMatches, blocksAll, List.filterMap_append,
      blockClassMatches_eq b, blocksClassMatches_eq bs]

end

mutual

theorem stmtFuncMatches_eq :
    ∀ s : Stmt, stmtFuncMatches s = (stmtAll s).filterMap funcOf
  | .exprStmt _ => rfl
  | .importStmt _ => rfl
  | .importFrom _ => rfl
  | .otherStmt _ => rfl
  | .funcDef n p rt b => by
    simp [stmtFuncMatches, stmtAll, List.filterMap_cons, funcOf,
      blockFuncMatches_eq b]
  | .classDef n b => by
    simp [stmtFuncMatches, stmtAll, List.filterMap_cons, funcOf,
      blockFuncMatches_eq b]
  | .compound t bs => by
    simp [stmtFuncMatches, stmtAll, List.filterMap_cons, funcOf,
      blocksFuncMatches_eq bs]

theorem stmtsFuncMatches_eq :
    ∀ ss : List Stmt, stmtsFuncMatches ss = (stmtsAll ss).filterMap funcOf
  | [] => rfl
  | s :: ss => by
    simp [stmtsFuncMatches, stmtsAll, List.filterMap_append,
      stmtFuncMatches_eq s, stmtsFuncMatches_eq ss]

theorem blockFuncMatches_eq :
    ∀ b : Block, blockFuncMatches b = (blockAll b).filterMap funcOf
  | .mk t ss => by
    simp [blockFuncMatches, blockAll, stmtsFuncMatches_eq ss]

theorem blocksFuncMatches_eq :
    ∀ bs : List Block, blocksFuncMatches bs = (blocksAll bs).filterMap funcOf
  | [] => rfl
  | b :: bs => by
    simp [blocksFuncMatches, blocksAll, List.filterMap_append,
      blockFuncMatches_eq b, blocksFuncMatches_eq bs]

end

/-- Taking the head of the docstring query's match list is the same as
scanning the direct children for the first bare string statement. -/
theorem specFirstString_eq :
    ∀ ss : List Stmt, (ss.filterMap strOfStmt).head? = specFirstString ss
  | [] => rfl
  | s :: ss => by
    cases h : strOfStmt s with
    | none =>
      simp [List.filterMap_cons, h, specFirstString, specFirstString_eq ss]
    | some t => simp [List.filterMap_cons, h, specFirstString]

/-! ## Helper lemmas: Python `strip` as a two-sided decomposition -/

theorem head?_dropWhile_all (p : Char → Bool) :
    ∀ l : List Char, ((l.dropWhile p).head?.all fun c => !p c) = true
  | [] => rfl
  | c :: l => by
    by_cases h : p c
    · simp [List.dropWhile_cons, h, head?_dropWhile_all p l]
    · simp [List.dropWhile_cons, h]

theorem all_takeWhile_holds (p : Char → Bool) :
    ∀ l : List Char, (l.takeWhile p).all p = true
  | [] => rfl
  | c :: l => by
    by_cases h : p c
    · simp [List.takeWhile_cons, h, all_takeWhile_holds p l]
    · simp [List.takeWhile_cons, h]

/-- Python `strip` removes a maximal run of stripped characters on each
side: the input splits as a fully-stripped prefix, the result, and a
fully-stripped suffix, while the result neither begins nor ends with a
stripped character. -/
theorem stripList_spec (p : Char → Bool) (l : List Char) :
    ∃ pre suf, l = pre ++ stripList p l ++ suf ∧ pre.all p = true ∧
      suf.all p = true ∧
      ((stripList p l).head?.all fun c => !p c) = true ∧
      ((stripList p l).getLast?.all fun c => !p c) = true := by
  have hsplit : stripList p l ++ ((l.dropWhile p).reverse.takeWhile p).reverse
      = l.dropWhile p := by
    have h3 : ((l.dropWhile p).reverse.takeWhile p
        ++ (l.dropWhile p).reverse.dropWhile p).reverse = l.dropWhile p := by
      rw [List.takeWhile_append_dropWhile, List.reverse_reverse]
    calc stripList p l ++ ((l.dropWhile p).reverse.takeWhile p).reverse
        = ((l.dropWhile p).reverse.takeWhile p
            ++ (l.dropWhile p).reverse.dropWhile p).reverse := by
          rw [List.reverse_append]; rfl
      _ = l.dropWhile p := h3
  refine ⟨l.takeWhile p, ((l.dropWhile p).reverse.takeWhile p).reverse,
    ?_, all_takeWhile_holds p l, ?_, ?_, ?_⟩
  · rw [List.append_assoc, hsplit, List.takeWhile_append_dropWhile]
  · rw [List.all_reverse]
    exact all_takeWhile_holds p (l.dropWhile p).reverse
  · have hh := head?_dropWhile_all p l
    cases hs : stripList p l with
    | nil => simp
    | cons c rest =>
      rw [hs] at hsplit
      rw [← hsplit] at hh
      simpa using hh
  · have hh := head?_dropWhile_all p (l.dropWhile p).reverse
    have hlast : (stripList p l).getLast?
        = ((l.dropWhile p).reverse.dropWhile p).head? := by
      show (((l.dropWhile p).reverse.dropWhile p).reverse).getLast? = _
      exact List.getLast?_reverse _
    rw [hlast]
    exact hh

/-! ## Helper lemmas: Python substring containment -/

theorem isPrefixL_self_append : ∀ (m q : List Char), isPrefixL m (m ++ q) = true
  | [], _ => rfl
  | c :: m, q => by simp [isPrefixL, isPrefixL_self_append m q]

theorem containsL_self (m suf : List Char) : containsL m (m ++ suf) = true := by
  have hp : isPrefixL m (m ++ suf) = true := isPrefixL_self_append m suf
  cases hm : m ++ suf with
  | nil =>
    rw [hm] at hp
    cases m with
    | nil => rfl
    | cons c cs => simp [isPrefixL] at hp
  | cons h t =>
    rw [hm] at hp
    simp [containsL, hp]

/-- A list contains each of its contiguous sublists. -/
theorem containsL_infix (pre m suf : List Char) :
    containsL m (pre ++ (m ++ suf)) = true := by
  induction pre with
  | nil => exact containsL_self m suf
  | cons c cs ih => simp [containsL, ih]

/-- A string contains its own whitespace-stripped form. -/
theorem pyContains_pyStrip (t : String) : pyContains t (pyStrip t) = true := by
  obtain ⟨pre, suf, hdec, -, -, -, -⟩ :=
    stripList_spec (fun c => pySpaceChars.contains c) t.toList
  show containsL (stripList (fun c => pySpaceChars.contains c) t.toList)
    t.toList = true
  have hc := containsL_infix pre
    (stripList (fun c => pySpaceChars.contains c) t.toList) suf
  rw [← List.append_assoc, ← hdec] at hc
  exact hc

/-! ## Helper lemmas: splitting on newlines -/

theorem splitOnNl_no_nl : ∀ l : List Char, '\n' ∉ l → splitOnNl l = [l]
  | [], _ => rfl
  | c :: cs, h => by
    have hc : ¬ c = '\n' := fun hh => h (hh ▸ List.mem_cons_self c cs)
    have ih := splitOnNl_no_nl cs (fun hm => h (List.mem_cons_of_mem c hm))
    simp [splitOnNl, ih, hc]

/-! ## Helper lemmas: the docstring-removal scan -/

theorem filterDocLines_eq_spec (needle : String) :
    ∀ ls : List String,
      filterDocLines needle ls false = specScanKeep needle ls ∧
      filterDocLines needle ls true = specScanSkip needle ls
  | [] => ⟨rfl, rfl⟩
  | l :: ls => by
    obtain ⟨ih1, ih2⟩ := filterDocLines_eq_spec needle ls
    constructor
    · by_cases h : pyContains l needle = true
      · simp [filterDocLines, specScanKeep, h, ih2]
      · simp [filterDocLines, specScanKeep, h, ih1]
    · by_cases hb : (pyStrip l == "") = true
      · simp [filterDocLines, specScanSkip, hb, ih2]
      · simp [filterDocLines, specScanSkip, hb, ih1]

theorem specScan_sublist (needle : String) :
    ∀ ls : List String,
      (specScanKeep needle ls).Sublist ls ∧ (specScanSkip needle ls).Sublist ls
  | [] => ⟨List.Sublist.refl _, List.Sublist.refl _⟩
  | l :: ls => by
    obtain ⟨ih1, ih2⟩ := specScan_sublist needle ls
    constructor
    · by_cases h : pyContains l needle = true
      · simpa [specScanKeep, h] using ih2.cons l
      · simpa [specScanKeep, h] using ih1.cons₂ l
    · by_cases hb : (pyStrip l == "") = true
      · simpa [specScanSkip, hb] using ih2.cons l
      · simpa [specScanSkip, hb] using ih1.cons₂ l

/-! ## Helper lemmas: the extraction loops as maps and filters -/

theorem get_imports_eq (m : Module) :
    get_imports m = (m.stmts.filterMap importTextOf).filter fun t => !(t == "") := by
  show (m.stmts.filterMap importTextOf).foldl
    (fun a t => if t == "" then a else a ++ [t]) [] = _
  rw [foldl_append_filter, List.nil_append]

theorem get_top_level_attributes_eq (m : Module) :
    get_top_level_attributes m
      = (m.stmts.filterMap assignTextOf).filter fun t => !(t == "") := by
  show (m.stmts.filterMap assignTextOf).foldl
    (fun a t => if t == "" then a else a ++ [t]) [] = _
  rw [foldl_append_filter, List.nil_append]

theorem get_module_functions_eq (m : Module) :
    get_module_functions m = (m.stmts.filterMap funcOf).map buildFunctionT := by
  show (m.stmts.filterMap funcOf).foldl
    (fun acc f => acc ++ [buildFunctionT f]) [] = _
  rw [foldl_append_map, List.nil_append]

theorem get_methods_of_class_eq (b : Block) :
    get_methods_of_class b = ((blockAll b).filterMap funcOf).map buildFunctionT := by
  show (blockFuncMatches b).foldl
    (fun acc f => acc ++ [buildFunctionT f]) [] = _
  rw [foldl_append_map, List.nil_append, blockFuncMatches_eq]

theorem get_classes_eq (m : Module) :
    get_classes m = ((stmtsAll m.stmts).filterMap classOf).map entityOf := by
  show (stmtsClassMatches m.stmts).foldl
    (fun acc c => acc ++ [entityOf c]) [] = _
  rw [foldl_append_map, List.nil_append, stmtsClassMatches_eq]

/-- No field of a built `Function` record is ever the empty string: empty
texts are turned into `none` by the loop bodies. -/
theorem buildFunction_no_empty (n p : String) (rt : Option String) (b : Block) :
    (buildFunction n p rt b).parameters ≠ some "" ∧
    (buildFunction n p rt b).return_type ≠ some "" ∧
    (buildFunction n p rt b).documentation ≠ some "" ∧
    (buildFunction n p rt b).body ≠ some "" := by
  unfold buildFunction
  refine ⟨?_, ?_, ?_, ?_⟩ <;> dsimp only <;> (repeat' split) <;> simp_all

/-! ## The claims -/

/-- C1, counterexample.  The claim states that documentation is extracted
only when the FIRST statement of the scope is a bare string literal, and
is None when a bare string statement occurs later but not first.  In the
module `x = 1` followed by `"doc"` the first statement is an assignment,
so the claim demands None; the extractor returns the later string. -/
theorem C1_counterexample :
    get_module_docstring exLateString = some "doc" ∧
    ¬ get_module_docstring exLateString = none := ⟨rfl, by decide⟩

/-- C1, amended.  Documentation comes from the FIRST bare string-literal
expression statement found in the scope, regardless of its position: for
the module scope and a class body scope, the first such statement among
the scope's direct children in source order; for a function body, the
first string-literal statement in any block of the body subtree in
document order.  The literal is stripped of quote characters and
whitespace; an empty result, or no such statement, yields None (the
splitter itself reports the cleaned text, possibly empty). -/
theorem C1_amended (m : Module) (b : Block) (n p : String)
    (rt : Option String) :
    get_module_docstring m = (specFirstString m.stmts).bind cleanDoc ∧
    classDocOf b = (specFirstString b.stmts).bind cleanDoc ∧
    (extract_docstring_and_body b).1
      = (((blockAll b).filterMap strOfStmt).head?).map rawClean ∧
    (buildFunction n p rt b).documentation
      = (((blockAll b).filterMap strOfStmt).head?).bind cleanDoc := by
  refine ⟨?_, ?_, ?_, ?_⟩
  · rw [← specFirstString_eq]
    cases h : m.stmts.filterMap strOfStmt with
    | nil => simp [get_module_docstring, h]
    | cons t rest => simp [get_module_docstring, h, cleanDoc, rawClean]
  · rw [← specFirstString_eq]
    cases h : b.stmts.filterMap strOfStmt with
    | nil => simp [classDocOf, h, cleanDoc, rawClean]
    | cons t rest =>
      by_cases ht : t = ""
      · simp [classDocOf, h, ht, cleanDoc, rawClean, pyStrip, pyStripSet,
          stripList, dropEndWhile]
      · simp [classDocOf, h, ht, cleanDoc, rawClean]
  · rw [← blockStringMatches_eq]
    cases h : blockStringMatches b with
    | nil => simp [extract_docstring_and_body, h]
    | cons t rest => simp [extract_docstring_and_body, h, rawClean]
  · rw [← blockStringMatches_eq]
    cases h : blockStringMatches b with
    | nil => simp [buildFunction, extract_docstring_and_body, h]
    | cons t rest =>
      simp [buildFunction, extract_docstring_and_body, h, cleanDoc, rawClean]

/-- C2, counterexample.  The claim states that `entities` contains
exactly the class definitions that are direct children of module scope
and that nested class definitions produce no entries.  In a module whose
only top-level statement is `def f():` containing `class C:`, the module
has no direct class child, yet the extractor emits `C` (its query is not
anchored to module scope). -/
theorem C2_counterexample :
    (get_classes exNestedClass).map Entity.name = ["C"] ∧
    exNestedClass.stmts.filterMap classOf = [] := ⟨rfl, rfl⟩

/-- C2, amended.  `entities` contains one entry per class definition
appearing ANYWHERE in the parse tree (top-level, nested in functions, or
nested in other classes), in document (preorder) order; each entry
carries the class name, the documentation of its own body, and the
methods extracted from its subtree. -/
theorem C2_amended (m : Module) :
    get_classes m = ((stmtsAll m.stmts).filterMap classOf).map entityOf :=
  get_classes_eq m

/-- C3, counterexample.  The claim states that a class's `methods` list
contains exactly the function definitions that are direct children of the
class body, and that deeper-nested functions are not emitted.  For a
class body with one method `meth` containing an inner function `inner`,
the direct children yield only `meth`, yet the extractor also emits
`inner` (its query matches function definitions at every depth of the
class subtree). -/
theorem C3_counterexample :
    (get_methods_of_class exInnerFuncBody).map Function.name
      = ["meth", "inner"] ∧
    (exInnerFuncBody.stmts.filterMap funcOf).map (fun f => f.1)
      = ["meth"] := ⟨rfl, rfl⟩

/-- C3, amended.  A class's `methods` list contains one entry per
function definition appearing ANYWHERE in the class's subtree (direct
methods, inner functions nested in methods, and methods of nested
classes), in document (preorder) order. -/
theorem C3_amended (b : Block) :
    get_methods_of_class b = ((blockAll b).filterMap funcOf).map buildFunctionT :=
  get_methods_of_class_eq b

/-- C4.  The claim (and the spec, and the comment in core.py: `remove
outer parentheses`) states that exactly the single outer pair of
delimiters is removed from the parameter-list text and no interior
parenthesis is touched.  `params.strip('()')` removes ALL leading and
trailing parenthesis characters: for `def f(x=g()):` the verbatim
parameter text `(x=g())` loses the trailing `))` of the call and then the
call's opening `(` as well, leaving `x=g` instead of `x=g()`. -/
theorem C4_param_strip_eval :
    (get_module_functions exCallDefault).map Function.parameters
      = [some "x=g"] ∧
    ¬ (get_module_functions exCallDefault).map Function.parameters
      = [some "x=g()"] := ⟨rfl, by decide⟩

/-- C5, counterexample.  The claim states that exactly one layer of
enclosing quote delimiters is removed and quote characters belonging to
the documentation content are preserved.  For the module docstring
literal `""""Hello"""` (content `"Hello`), `strip('\'"')` also removes
the content's own leading quote, producing `Hello`. -/
theorem C5_counterexample :
    get_module_docstring exQuoteContent = some "Hello" ∧
    ¬ get_module_docstring exQuoteContent = some "\"Hello" :=
  ⟨rfl, by decide⟩

/-- C5, amended.  The docstring clean-up removes ALL leading and ALL
trailing quote characters (single or double, maximally on both sides) —
so quote characters at the very edges of the content are removed too —
and then trims whitespace; quote characters not at the edges survive.
Stated as: the literal splits into a fully-quote prefix, the kept middle
(which neither begins nor ends with a quote character), and a fully-quote
suffix, and the module docstring is the trimmed middle (None when empty). -/
theorem C5_amended (t : String) :
    ∃ pre suf,
      t.toList = pre ++ (pyStripSet t quoteChars).toList ++ suf ∧
      pre.all (fun c => quoteChars.contains c) = true ∧
      suf.all (fun c => quoteChars.contains c) = true ∧
      ((pyStripSet t quoteChars).toList.head?.all
        fun c => !quoteChars.contains c) = true ∧
      ((pyStripSet t quoteChars).toList.getLast?.all
        fun c => !quoteChars.contains c) = true ∧
      get_module_docstring ⟨[.exprStmt (.str t)]⟩ = cleanDoc t := by
  obtain ⟨pre, suf, h1, h2, h3, h4, h5⟩ :=
    stripList_spec (fun c => quoteChars.contains c) t.toList
  exact ⟨pre, suf, h1, h2, h3, h4, h5, rfl⟩

/-- C6, counterexample.  The claim states that only the FIRST line
containing the docstring literal is dropped and that later lines
containing the same text are kept.  In the body `"doc" / x = 1 /
y = "doc"`, the scan drops the third line too, because the skip flag was
reset by the second line. -/
theorem C6_counterexample :
    extract_docstring_and_body exLaterOccurrence = (some "doc", "x = 1") ∧
    ¬ (extract_docstring_and_body exLaterOccurrence).2
      = "x = 1\n    y = \"doc\"" := ⟨rfl, by decide⟩

/-- C6, amended.  The scan drops EVERY line that contains the trimmed
docstring literal and does not immediately follow a dropped line, and
after a dropped line it drops ALL consecutive blank lines (not at most
one); the first non-blank line after a dropped line is always kept (even
if it contains the literal) and resets the scan.  The kept lines are a
subsequence of the body's lines, and the splitter's body is the scan's
output joined, stripped, and brace-trimmed. -/
theorem C6_amended :
    (∀ (needle : String) (ls : List String),
       filterDocLines needle ls false = specScanKeep needle ls ∧
       (filterDocLines needle ls false).Sublist ls) ∧
    (∀ b : Block, (extract_docstring_and_body b).2 =
       match blockStringMatches b with
       | [] => postBody b.text
       | t :: _ =>
         postBody (pyStrip (pyJoinLines
           (specScanKeep (pyStrip t) (pySplitLines b.text))))) := by
  constructor
  · intro needle ls
    refine ⟨(filterDocLines_eq_spec needle ls).1, ?_⟩
    rw [(filterDocLines_eq_spec needle ls).1]
    exact (specScan_sublist needle ls).1
  · intro b
    cases h : blockStringMatches b with
    | nil => simp [extract_docstring_and_body, h]
    | cons t rest =>
      simp [extract_docstring_and_body, h,
        (filterDocLines_eq_spec (pyStrip t) (pySplitLines b.text)).1]

/-- C7.  Every result list preserves source order and performs no
deduplication: imports and attributes are the source-ordered capture
texts with empty texts filtered out (in particular each duplicate yields
its own entry — counts are preserved for every non-empty text), and the
functions, entities, and per-entity methods lists are in the source
(document) order of the corresponding definitions. -/
theorem C7_order (m : Module) :
    (get_imports m).Sublist (m.stmts.filterMap importTextOf) ∧
    (∀ t : String, ¬ t = "" →
       (get_imports m).count t = (m.stmts.filterMap importTextOf).count t) ∧
    (get_top_level_attributes m).Sublist (m.stmts.filterMap assignTextOf) ∧
    (∀ t : String, ¬ t = "" →
       (get_top_level_attributes m).count t
         = (m.stmts.filterMap assignTextOf).count t) ∧
    (get_module_functions m).map Function.name
      = (m.stmts.filterMap funcOf).map (fun f => f.1) ∧
    (get_classes m).map Entity.name
      = ((stmtsAll m.stmts).filterMap classOf).map (fun c => c.1) ∧
    (get_classes m).map (fun e => e.methods.map Function.name)
      = ((stmtsAll m.stmts).filterMap classOf).map
          (fun c => ((blockAll c.2).filterMap funcOf).map (fun f => f.1)) := by
  refine ⟨?_, ?_, ?_, ?_, ?_, ?_, ?_⟩
  · rw [get_imports_eq]; exact List.filter_sublist _
  · intro t ht
    rw [get_imports_eq]
    exact List.count_filter (by simp [ht])
  · rw [get_top_level_attributes_eq]; exact List.filter_sublist _
  · intro t ht
    rw [get_top_level_attributes_eq]
    exact List.count_filter (by simp [ht])
  · rw [get_module_functions_eq, List.map_map]; rfl
  · rw [get_classes_eq, List.map_map]; rfl
  · rw [get_classes_eq, List.map_map]
    refine List.map_congr_left ?_
    intro c hc
    show (get_methods_of_class c.2).map Function.name = _
    rw [get_methods_of_class_eq, List.map_map]
    rfl

/-- C7, witness: in a module with two identical import statements both
occurrences are reported, in order. -/
theorem C7_order_witness :
    (get_imports exDupImports).Sublist
      (exDupImports.stmts.filterMap importTextOf) ∧
    (get_imports exDupImports).count "import os"
      = (exDupImports.stmts.filterMap importTextOf).count "import os" ∧
    (get_imports exDupImports).count "import os" = 2 :=
  ⟨(C7_order exDupImports).1,
   (C7_order exDupImports).2.1 "import os" (by decide),
   by decide⟩

/-- C8, counterexample.  The claim states that EVERY function whose body
consists solely of its docstring yields `body = None`.  When that
docstring spans several lines (here `"""a⏎b"""`), no single line of the
body contains the literal, the line scan removes nothing, and the body is
the docstring literal itself rather than None. -/
theorem C8_counterexample :
    (get_module_functions exMultilineDoc).map Function.body
      = [some "\"\"\"a\nb\"\"\""] ∧
    (get_module_functions exMultilineDoc).map Function.documentation
      = [some "a\nb"] ∧
    ¬ (get_module_functions exMultilineDoc).map Function.body = [none] :=
  ⟨rfl, rfl, by decide⟩

/-- C8, amended.  A function whose body consists solely of its docstring
yields `body = None` PROVIDED the docstring literal lies on a single line
(contains no newline); the documentation is the cleaned literal (None
when the cleaned text is empty). -/
theorem C8_amended (t n p : String) (rt : Option String)
    (h : '\n' ∉ t.toList) :
    (buildFunction n p rt (Block.mk t [Stmt.exprStmt (Expr.str t)])).body
      = none ∧
    (buildFunction n p rt
      (Block.mk t [Stmt.exprStmt (Expr.str t)])).documentation
      = cleanDoc t := by
  have hsplit : pySplitLines t = [t] := by
    show (splitOnNl t.toList).map String.mk = [t]
    rw [splitOnNl_no_nl t.toList h]
    rfl
  have hfilter : filterDocLines (pyStrip t) [t] false = [] := by
    simp [filterDocLines, pyContains_pyStrip t]
  have hex : extract_docstring_and_body
      (Block.mk t [Stmt.exprStmt (Expr.str t)]) = (some (rawClean t), "") := by
    show (some (pyStrip (pyStripSet t quoteChars)),
      postBody (pyStrip (pyJoinLines
        (filterDocLines (pyStrip t) (pySplitLines t) false)))) = _
    rw [hsplit, hfilter]
    rfl
  constructor
  · simp [buildFunction, hex]
  · simp [buildFunction, hex, cleanDoc]

/-- C8, witness: a function whose body is exactly the one-line docstring
literal `"doc"`. -/
theorem C8_amended_witness :
    (buildFunction "f" "()" none
      (Block.mk "\"doc\"" [Stmt.exprStmt (Expr.str "\"doc\"")])).body
      = none ∧
    (buildFunction "f" "()" none
      (Block.mk "\"doc\"" [Stmt.exprStmt (Expr.str "\"doc\"")])).documentation
      = cleanDoc "\"doc\"" :=
  C8_amended "\"doc\"" "f" "()" none (by decide)

/-- C9.  The controller fails exactly when the Parse Engine fails (the
engine's error is passed through unchanged and nothing else raises), and
on success it returns one complete `SourceFile` assembled from the five
total extraction steps; for a tree with no constructs at all, every field
is None or empty, never an error. -/
theorem C9_total (engine : String → Except ParseError Module)
    (source path : String) (m : Module) (p : String) :
    parseWith engine source path
      = (engine source).map (fun tree => parse tree path) ∧
    parse m p = { path := p
                  documentation := get_module_docstring m
                  imports := get_imports m
                  top_level_attributes := get_top_level_attributes m
                  top_level_functions := get_module_functions m
                  entities := get_classes m } ∧
    parse emptyModule "" = { path := ""
                             documentation := none
                             imports := []
                             top_level_attributes := []
                             top_level_functions := []
                             entities := [] } := by
  refine ⟨?_, rfl, rfl⟩
  cases h : engine source <;> simp [parseWith, h, Except.map]

/-- C10.  No `Function` emitted by the extractor carries an empty string
in an optional field: empty parameter text, absent return type, absent
documentation, and empty body are all represented as None; in particular
a function written with bare delimiters `()` gets `parameters = None`. -/
theorem C10_none_not_empty :
    (∀ (m : Module) (f : Function),
       (f ∈ get_module_functions m ∨
        ∃ e, e ∈ get_classes m ∧ f ∈ e.methods) →
       f.parameters ≠ some "" ∧ f.return_type ≠ some "" ∧
       f.documentation ≠ some "" ∧ f.body ≠ some "") ∧
    (∀ (n : String) (rt : Option String) (b : Block),
       (buildFunction n "()" rt b).parameters = none) := by
  constructor
  · intro m f hf
    have hb : ∃ n p rt b, f = buildFunction n p rt b := by
      rcases hf with hf | ⟨e, he, hfe⟩
      · rw [get_module_functions_eq] at hf
        obtain ⟨x, -, hx⟩ := List.mem_map.mp hf
        exact ⟨x.1, x.2.1, x.2.2.1, x.2.2.2, hx.symm⟩
      · rw [get_classes_eq] at he
        obtain ⟨c, -, hc⟩ := List.mem_map.mp he
        rw [← hc] at hfe
        have : f ∈ get_methods_of_class c.2 := hfe
        rw [get_methods_of_class_eq] at this
        obtain ⟨x, -, hx⟩ := List.mem_map.mp this
        exact ⟨x.1, x.2.1, x.2.2.1, x.2.2.2, hx.symm⟩
    obtain ⟨n, p, rt, b, rfl⟩ := hb
    exact buildFunction_no_empty n p rt b
  · intro n rt b
    rfl

/-- C10, witness: the module `def f():⏎    pass` yields a function whose
optional fields are all None, never the empty string. -/
theorem C10_none_not_empty_witness :
    ((buildFunction "f" "()" none
        (Block.mk "pass" [Stmt.otherStmt "pass"])).parameters ≠ some "" ∧
     (buildFunction "f" "()" none
        (Block.mk "pass" [Stmt.otherStmt "pass"])).return_type ≠ some "" ∧
     (buildFunction "f" "()" none
        (Block.mk "pass" [Stmt.otherStmt "pass"])).documentation ≠ some "" ∧
     (buildFunction "f" "()" none
        (Block.mk "pass" [Stmt.otherStmt "pass"])).body ≠ some "") ∧
    (buildFunction "g" "()" none (Block.mk "pass" [])).parameters = none :=
  ⟨C10_none_not_empty.1 exEmptyParams
     (buildFunction "f" "()" none (Block.mk "pass" [Stmt.otherStmt "pass"]))
     (Or.inl (List.Mem.head _)),
   C10_none_not_empty.2 "g" none (Block.mk "pass" [])⟩

end Stractor
